import Mathlib

/-!
Verification development for the ZKE EBC-Axx serial driver
(`src/zke_ebc_axx/device.py`).

The Python code is shallowly embedded: byte strings become `List Nat`,
Python integers become `Int` or `Nat`, floats become `ℚ` (exact rational
arithmetic), functions that raise become `Option`-valued, and the serial
side effects are modelled by returning the frame that would be written and
by consuming an explicit list of read results.
-/

namespace ZkeEbcAxx

/-- Python `int(x)` applied to a (rational-valued) float: truncation toward
zero. `device.py` applies it to products such as `current * self.I_MULT`. -/
def pyInt (q : ℚ) : Int :=
  q.num / (q.den : Int)

/-- Protocol constants of `EBCDevice` (device.py:21-30). -/
def INIT_BYTE : Nat := 0xFA

def END_BYTE : Nat := 0xF8

def I_MULT : Nat := 1000

def V_MULT : Nat := 100

def P_MULT : Nat := 100

/-- Mode nibbles (device.py:32-41). `MODE_SYS` and `MODE_D_CC` are both 0. -/
def MODE_SYS : Nat := 0x0

def MODE_D_CC : Nat := 0x0

def MODE_D_CP : Nat := 0x1

def MODE_C_NIMH : Nat := 0x2

def MODE_C_NICD : Nat := 0x3

def MODE_C_LIPO : Nat := 0x4

def MODE_C_LIFE : Nat := 0x5

def MODE_C_PB : Nat := 0x6

def MODE_C_CCCV : Nat := 0x7

/-- Command nibbles (device.py:65-74). -/
def CMD_CONNECT : Nat := 0x05

def CMD_DISCONNECT : Nat := 0x06

def CMD_STOP : Nat := 0x02

def CMD_START : Nat := 0x01

def CMD_ADJUST : Nat := 0x07

def CMD_CONTINUE : Nat := 0x08

/-- Model of `EBCDevice.encode_value` (device.py:232-269).  Raising `ValueError`
outside [0, 57599] is modelled as `none`; otherwise the two bytes
`[(encoded >> 8) & 0xFF, encoded & 0xFF]` are returned, where
`encoded = value + 16 * (value // 240)` (the `offset_group = 0` case leaves
the value unchanged, exactly as in the source). -/
def encode_value (value : Int) : Option (List Nat) :=
  if 0 ≤ value ∧ value ≤ 57599 then
    let v := value.toNat
    let offset_group := v / 240
    let encoded_value := if offset_group = 0 then v else v + offset_group * 16
    some [(encoded_value >>> 8) &&& 0xFF, encoded_value &&& 0xFF]
  else
    none

/-- Body of `EBCDevice.decode_value` on a two-byte input (device.py:288-295):
`encoded = (msb << 8) | lsb; decoded = encoded - msb * 16`. -/
def decode2 (msb lsb : Nat) : Int :=
  (((msb <<< 8) ||| lsb : Nat) : Int) - (msb : Int) * 16

/-- Model of `EBCDevice.decode_value` (device.py:271-295).  Raising `ValueError` when
the input is not exactly 2 bytes is modelled as `none`; every 2-byte input
decodes with no further validation. -/
def decode_value (data : List Nat) : Option Int :=
  if data.length = 2 then
    some (decode2 (data.getD 0 0) (data.getD 1 0))
  else
    none

/-- Model of `EBCDevice._calculate_checksum` (device.py:130-145): XOR of all bytes. -/
def calculate_checksum (data : List Nat) : Nat :=
  data.foldl (fun result byte => result ^^^ byte) 0

/-- Model of `EBCDevice.send_command` (device.py:147-201), modelled as the 10-byte
frame the method writes to the serial port.  The `CommandError` raised for a
mode or command nibble outside 0..15 becomes `none`; Python's `data=None`
default is the `none` argument.  The checksum is always recomputed over
`cmd_bytes[1:8]` (command byte plus the six data bytes). -/
def send_command (mode command : Nat) (data : Option (List Nat)) : Option (List Nat) :=
  if ¬ (mode ≤ 0xF) then none
  else if ¬ (command ≤ 0xF) then none
  else
    let command_code := (mode <<< 4) ||| command
    let data_list :=
      match data with
      | none => List.replicate 6 0
      | some d =>
        if d.length < 6 then d ++ List.replicate (6 - d.length) 0
        else d.take 6
    let cmd_bytes := [INIT_BYTE, command_code] ++ data_list
    let checksum := calculate_checksum ((cmd_bytes.drop 1).take 7)
    some (cmd_bytes ++ [checksum, END_BYTE])

/-- Model of `EBCDevice.send_command_16bit` (device.py:203-219): encodes the three
16-bit arguments and concatenates them as the 6-byte payload. -/
def send_command_16bit (mode command : Nat) (arg1 arg2 arg3 : Int) : Option (List Nat) := do
  let e1 ← encode_value arg1
  let e2 ← encode_value arg2
  let e3 ← encode_value arg3
  send_command mode command (some (e1 ++ e2 ++ e3))

/-- Model of `EBCDevice._send_cmd_discharge_cc` (device.py:368-375).  The source passes
`self.CMD_START` to `send_command_16bit` and never uses its `cmd` parameter,
so every discharge-CC frame carries the start command nibble. -/
def send_cmd_discharge_cc (cmd : Nat) (current cutoff_voltage timeout_s : ℚ) :
    Option (List Nat) :=
  send_command_16bit MODE_D_CC CMD_START (pyInt (current * (I_MULT : ℚ)))
    (pyInt (cutoff_voltage * (V_MULT : ℚ))) (pyInt (timeout_s / 60))

/-- Model of `EBCDevice.start_discharge_cc` (device.py:377-385). -/
def start_discharge_cc (current cutoff_voltage timeout_s : ℚ) : Option (List Nat) :=
  send_cmd_discharge_cc CMD_START current cutoff_voltage timeout_s

/-- Model of `EBCDevice.adjust_discharge_cc` (device.py:387-396). -/
def adjust_discharge_cc (current cutoff_voltage timeout_s : ℚ) : Option (List Nat) :=
  send_cmd_discharge_cc CMD_ADJUST current cutoff_voltage timeout_s

/-- Model of `EBCDevice._send_cmd_discharge_cp` (device.py:398-405).  The source passes
`self.MODE_D_CC` (0) as the mode nibble, not `MODE_D_CP` (1). -/
def send_cmd_discharge_cp (cmd : Nat) (power cutoff_voltage timeout_s : ℚ) :
    Option (List Nat) :=
  send_command_16bit MODE_D_CC cmd (pyInt (power * (P_MULT : ℚ)))
    (pyInt (cutoff_voltage * (V_MULT : ℚ))) (pyInt (timeout_s / 60))

/-- Model of `EBCDevice.start_discharge_cp` (device.py:407-416). -/
def start_discharge_cp (power cutoff_voltage timeout_s : ℚ) : Option (List Nat) :=
  send_cmd_discharge_cp CMD_START power cutoff_voltage timeout_s

/-- Model of `EBCDevice.adjust_discharge_cp` (device.py:418-427). -/
def adjust_discharge_cp (power cutoff_voltage timeout_s : ℚ) : Option (List Nat) :=
  send_cmd_discharge_cp CMD_ADJUST power cutoff_voltage timeout_s

/-- Model of `EBCDevice._send_cmd_charge_cccv` (device.py:337-344). -/
def send_cmd_charge_cccv (cmd : Nat) (voltage current timeout_s : ℚ) : Option (List Nat) :=
  send_command_16bit MODE_C_CCCV cmd (pyInt (current * (I_MULT : ℚ)))
    (pyInt (voltage * (V_MULT : ℚ))) (pyInt (timeout_s / 60))

/-- Model of `EBCDevice.start_charge_cccv` (device.py:346-355). -/
def start_charge_cccv (voltage current timeout_s : ℚ) : Option (List Nat) :=
  send_cmd_charge_cccv CMD_START voltage current timeout_s

/-- Model of `EBCDevice.adjust_charge_cccv` (device.py:357-366). -/
def adjust_charge_cccv (voltage current timeout_s : ℚ) : Option (List Nat) :=
  send_cmd_charge_cccv CMD_ADJUST voltage current timeout_s

/-- Model of `EBCDevice.MODE_NAMES` (device.py:43-53).  The Python dict literal lists
nine entries, but `MODE_SYS` and `MODE_D_CC` are both the key 0, so the
constructed dict has the eight keys 0..7 and key 0 holds the later entry,
"D_CC". -/
def MODE_NAMES (mode : Nat) : Option String :=
  match mode with
  | 0 => some "D_CC"
  | 1 => some "D_CP"
  | 2 => some "C_NIMH"
  | 3 => some "C_NICD"
  | 4 => some "C_LIPO"
  | 5 => some "C_LIFE"
  | 6 => some "C_PB"
  | 7 => some "C_CCCV"
  | _ => none

/-- Model of `EBCDevice.RESP_STATE_NAMES` (device.py:59-63). -/
def RESP_STATE_NAMES (state : Nat) : Option String :=
  match state with
  | 0 => some "IDLE"
  | 1 => some "WORKING"
  | 2 => some "COMPLETED"
  | _ => none

/-- Python `f"UNKNOWN_{code}"` (device.py:468 and 470). -/
def unknown_name (code : Nat) : String :=
  "UNKNOWN_" ++ toString code

/-- The ordered dict `read_measurement` returns (device.py:485-500), as a
structure.  The regime byte and the raw frame are kept as numbers rather
than hex strings. -/
structure Measurement where
  regime : Nat
  mode : String
  state : String
  i_measured : ℚ
  u_measured : ℚ
  stored_charge : Int
  i_setting : ℚ
  u_cutoff : ℚ
  max_time : Int
  ident : Nat
  unk1 : List Nat
  raw_data : List Nat
  deriving Repr, DecidableEq

/-- Model of `EBCDevice.read_measurement` (device.py:438-500), as a function of the
bytes the 19-byte serial read returned.  Every early `return None` (empty
read, wrong length, wrong INIT/END sentinel) becomes `none`.  The checksum
comparison at device.py:458-463 only logs a warning — the raise is commented
out in the source — so the decoded measurement is returned even on a
checksum mismatch.  Each two-byte field is `decode_value` applied to a
2-byte slice, that is, `decode2` of the slice's bytes. -/
def read_measurement (data : List Nat) : Option Measurement :=
  if data = [] then none
  else if data.length ≠ 19 then none
  else if ¬ (data.getD 0 0 = INIT_BYTE ∧ data.getD 18 0 = END_BYTE) then none
  else
    let regime := data.getD 1 0
    let mode := regime % 10
    let state := regime / 10
    some {
      regime := regime
      mode := (MODE_NAMES mode).getD (unknown_name mode)
      state := (RESP_STATE_NAMES state).getD (unknown_name state)
      i_measured := (decode2 (data.getD 2 0) (data.getD 3 0) : ℚ) / 1000
      u_measured := (decode2 (data.getD 4 0) (data.getD 5 0) : ℚ) / 1000
      stored_charge := decode2 (data.getD 6 0) (data.getD 7 0)
      i_setting := (decode2 (data.getD 10 0) (data.getD 11 0) : ℚ) / 1000
      u_cutoff := (decode2 (data.getD 12 0) (data.getD 13 0) : ℚ) / 100
      max_time := decode2 (data.getD 14 0) (data.getD 15 0)
      ident := data.getD 16 0
      unk1 := [data.getD 8 0, data.getD 9 0]
      raw_data := data }

/-- The terminal-state test `data["state"] in ("COMPLETED", "IDLE")`
(device.py:513, 595 and 636). -/
def is_terminal (m : Measurement) : Bool :=
  m.state == "COMPLETED" || m.state == "IDLE"

/-- Model of `EBCDevice.read_until_complete` (device.py:502-514), over an explicit
finite list of reads (`none` models a read that returned no data).  Returns
the list of samples passed to `writer_cb`, in order.  The loop runs while
`counter < 4`; a sample with terminal state increments the counter, which is
never reset. -/
def read_until_complete (counter : Nat) : List (Option Measurement) → List Measurement
  | [] => []
  | r :: rest =>
    if 4 ≤ counter then []
    else
      match r with
      | none => read_until_complete counter rest
      | some m =>
        m :: read_until_complete (if is_terminal m then counter + 1 else counter) rest

/-- A typed command issued by the CV ramp procedures, with its physical-unit
arguments (currents/powers in A/W, voltages in V), in the order the Python
methods take them. -/
inductive CmdEvent where
  | startDischargeCc (current cutoff_voltage : ℚ)
  | adjustDischargeCc (current cutoff_voltage : ℚ)
  | startChargeCccv (voltage current : ℚ)
  | adjustChargeCccv (voltage current : ℚ)
  deriving Repr, DecidableEq

/-- The polling loop of `EBCDevice.discharge_cv` (device.py:588-603) over an
explicit list of reads: the adjust commands issued and the number of times
the decay step `current *= 0.8` ran.  The float constants 0.8 and 0.05 are
the exact rationals 4/5 and 1/20.  A read with no data and a non-terminal
sample both continue the loop; a terminal sample decays the current and
either exits (current below the floor) or issues
`adjust_discharge_cc(current, target_voltage)`. -/
def discharge_cv_loop : List (Option Measurement) → ℚ → ℚ → List CmdEvent × Nat
  | [], _, _ => ([], 0)
  | none :: rest, current, tv => discharge_cv_loop rest current tv
  | some m :: rest, current, tv =>
    if is_terminal m then
      if current * (4 / 5) < 1 / 20 then ([], 1)
      else
        (CmdEvent.adjustDischargeCc (current * (4 / 5)) tv
            :: (discharge_cv_loop rest (current * (4 / 5)) tv).1,
          (discharge_cv_loop rest (current * (4 / 5)) tv).2 + 1)
    else discharge_cv_loop rest current tv

/-- The polling loop of `EBCDevice.charge_cv` (device.py:629-644), identical
to the discharge loop except that it issues
`adjust_charge_cccv(voltage=target_voltage, current=current)`. -/
def charge_cv_loop : List (Option Measurement) → ℚ → ℚ → List CmdEvent × Nat
  | [], _, _ => ([], 0)
  | none :: rest, current, tv => charge_cv_loop rest current tv
  | some m :: rest, current, tv =>
    if is_terminal m then
      if current * (4 / 5) < 1 / 20 then ([], 1)
      else
        (CmdEvent.adjustChargeCccv tv (current * (4 / 5))
            :: (charge_cv_loop rest (current * (4 / 5)) tv).1,
          (charge_cv_loop rest (current * (4 / 5)) tv).2 + 1)
    else charge_cv_loop rest current tv

/-- The pre-check loop at the top of `discharge_cv`/`charge_cv`
(device.py:574-581 and 615-622): poll until the first successfully parsed
measurement, returning it with the remaining reads. -/
def first_parsed : List (Option Measurement) → Option (Measurement × List (Option Measurement))
  | [] => none
  | none :: rest => first_parsed rest
  | some m :: rest => some (m, rest)

/-- Model of `EBCDevice.discharge_cv` (device.py:564-603) as the list of commands it
writes.  If the first parsed measurement is already below the target, the
procedure logs a warning and returns with no command issued; otherwise it
starts a CC discharge at the 5 A seed current and runs the decay loop. -/
def discharge_cv (reads : List (Option Measurement)) (target_voltage : ℚ) : List CmdEvent :=
  match first_parsed reads with
  | none => []
  | some (m, rest) =>
    if m.u_measured < target_voltage then []
    else
      CmdEvent.startDischargeCc 5 target_voltage
        :: (discharge_cv_loop rest 5 target_voltage).1

/-- Model of `EBCDevice.charge_cv` (device.py:605-644) as the list of commands it
writes.  If the first parsed measurement is already above the target, the
procedure returns with no command issued; otherwise it starts a CCCV charge
at the 5 A seed current and runs the decay loop. -/
def charge_cv (reads : List (Option Measurement)) (target_voltage : ℚ) : List CmdEvent :=
  match first_parsed reads with
  | none => []
  | some (m, rest) =>
    if target_voltage < m.u_measured then []
    else
      CmdEvent.startChargeCccv target_voltage 5
        :: (charge_cv_loop rest 5 target_voltage).1

/-- Fuel-indexed form of the decay loop shared by the two CV ramps: the list
of adjusted currents and the number of decay steps taken when every observed
sample is terminal. -/
def cv_iter : Nat → ℚ → List ℚ × Nat
  | 0, _ => ([], 0)
  | fuel + 1, current =>
    if current * (4 / 5) < 1 / 20 then ([], 1)
    else ((current * (4 / 5)) :: (cv_iter fuel (current * (4 / 5))).1,
      (cv_iter fuel (current * (4 / 5))).2 + 1)

/-- A well-framed 19-byte response whose regime byte is `regime`, all data
fields zero; byte 17 equals the XOR checksum of bytes 1-16. -/
def regimeFrame (regime : Nat) : List Nat :=
  [0xFA, regime, 0, 0, 0, 0, 0, 0, 0, 0, 0, 0, 0, 0, 0, 0, 0, regime, 0xF8]

/-- A concrete sample in the COMPLETED terminal state, for witnesses. -/
def sampleCompleted : Measurement :=
  { regime := 20, mode := "D_CC", state := "COMPLETED", i_measured := 0, u_measured := 0,
    stored_charge := 0, i_setting := 0, u_cutoff := 0, max_time := 0, ident := 5,
    unk1 := [0, 0], raw_data := [] }

/-- A concrete sample in the WORKING (non-terminal) state, for witnesses. -/
def sampleWorking : Measurement :=
  { regime := 10, mode := "D_CC", state := "WORKING", i_measured := 0, u_measured := 0,
    stored_charge := 0, i_setting := 0, u_cutoff := 0, max_time := 0, ident := 5,
    unk1 := [0, 0], raw_data := [] }

/-- A concrete sample measuring 2.5 V, for the pre-check witnesses. -/
def sampleLowVoltage : Measurement :=
  { regime := 10, mode := "D_CC", state := "WORKING", i_measured := 0, u_measured := 5 / 2,
    stored_charge := 0, i_setting := 0, u_cutoff := 0, max_time := 0, ident := 5,
    unk1 := [0, 0], raw_data := [] }

/-- A well-framed 19-byte response with measured-voltage bytes (0, 100) and
cutoff-voltage bytes (0, 200), for the scale-factor witness. -/
def uFrame : List Nat :=
  [0xFA, 1, 0, 0, 0, 100, 0, 0, 0, 0, 0, 0, 0, 200, 0, 0, 0, 0, 0xF8]

/-! ## Theorems -/

/-- Bit-level helper: or-ing a left-shifted value with a small value is
addition. -/
theorem shiftLeft_lor_eq_add (a b n : ℕ) (h : b < 2 ^ n) :
    a <<< n ||| b = a * 2 ^ n + b := by
  apply Nat.eq_of_testBit_eq
  intro i
  rw [Nat.testBit_lor, Nat.testBit_shiftLeft]
  rcases Nat.lt_or_ge i n with hi | hi
  · have hge : ¬ (i ≥ n) := by omega
    simp only [hge, decide_False, Bool.false_and, Bool.false_or]
    rw [Nat.testBit_to_div_mod, Nat.testBit_to_div_mod]
    have h2 : a * 2 ^ n + b = b + 2 ^ i * (a * 2 ^ (n - i)) := by
      have hp : (2 : ℕ) ^ n = 2 ^ i * 2 ^ (n - i) := by
        rw [← pow_add]
        congr 1
        omega
      rw [hp]
      ring
    have h3 : (2 : ℕ) ^ (n - i) = 2 * 2 ^ (n - i - 1) := by
      rw [← pow_succ']
      congr 1
      omega
    rw [h2, Nat.add_mul_div_left _ _ (Nat.pos_pow_of_pos i (by norm_num)), h3,
      Nat.mul_left_comm, Nat.add_mul_mod_self_left]
  · have hge : (i ≥ n) := hi
    simp only [hge, decide_True, Bool.true_and]
    have hb : b.testBit i = false := by
      apply Nat.testBit_lt_two_pow
      calc b < 2 ^ n := h
        _ ≤ 2 ^ i := Nat.pow_le_pow_right (by norm_num) hi
    rw [hb, Bool.or_false]
    rw [Nat.testBit_to_div_mod, Nat.testBit_to_div_mod]
    have key : (a * 2 ^ n + b) / 2 ^ i = a / 2 ^ (i - n) := by
      have hpow : (2 : ℕ) ^ i = 2 ^ n * 2 ^ (i - n) := by
        rw [← pow_add]
        congr 1
        omega
      rw [hpow, ← Nat.div_div_eq_div_mul]
      congr 1
      rw [Nat.mul_comm a, Nat.mul_add_div (Nat.pos_pow_of_pos n (by norm_num))]
      simp [Nat.div_eq_of_lt h]
    rw [key]

/-- Value of `pyInt` at an integer-valued rational is that integer. -/
theorem pyInt_intCast (n : Int) : pyInt (n : ℚ) = n := by
  unfold pyInt
  norm_num

/-- Helper to evaluate `pyInt` through a `norm_num`-provable cast fact. -/
theorem pyInt_eq_of_cast (q : ℚ) (n : Int) (h : q = (n : ℚ)) : pyInt q = n := by
  subst h
  exact pyInt_intCast n

/-- In range, `encode_value` produces exactly the byte pair
`[v / 240, v % 240]` (the offset-by-16-per-240 encoding in base-256 form). -/
theorem encode_value_eq (v : Int) (h0 : 0 ≤ v) (h1 : v ≤ 57599) :
    encode_value v = some [v.toNat / 240, v.toNat % 240] := by
  have hrange : 0 ≤ v ∧ v ≤ 57599 := ⟨h0, h1⟩
  unfold encode_value
  rw [if_pos hrange]
  have hn : v.toNat ≤ 57599 := by omega
  have he : (if v.toNat / 240 = 0 then v.toNat else v.toNat + v.toNat / 240 * 16)
      = 256 * (v.toNat / 240) + v.toNat % 240 := by
    split <;> omega
  simp only [he]
  have hhi : (256 * (v.toNat / 240) + v.toNat % 240) >>> 8 &&& 0xFF = v.toNat / 240 := by
    rw [Nat.shiftRight_eq_div_pow]
    have hdiv : (256 * (v.toNat / 240) + v.toNat % 240) / 2 ^ 8 = v.toNat / 240 := by
      omega
    rw [hdiv]
    have h255 : (0xFF : ℕ) = 2 ^ 8 - 1 := by norm_num
    rw [h255, Nat.and_pow_two_sub_one_eq_mod]
    omega
  have hlo : (256 * (v.toNat / 240) + v.toNat % 240) &&& 0xFF = v.toNat % 240 := by
    have h255 : (0xFF : ℕ) = 2 ^ 8 - 1 := by norm_num
    rw [h255, Nat.and_pow_two_sub_one_eq_mod]
    omega
  rw [hhi, hlo]

/-- Evaluation of `decode_value` on a two-byte list. -/
theorem decode_value_pair (a b : Nat) : decode_value [a, b] = some (decode2 a b) := rfl

/-- Round trip of the value codec on the whole domain. -/
theorem decode_encode_value (v : Int) (h0 : 0 ≤ v) (h1 : v ≤ 57599) :
    ∃ bs, encode_value v = some bs ∧ bs.length = 2 ∧ decode_value bs = some v := by
  refine ⟨[v.toNat / 240, v.toNat % 240], encode_value_eq v h0 h1, rfl, ?_⟩
  rw [decode_value_pair]
  unfold decode2
  rw [shiftLeft_lor_eq_add _ _ 8 (by omega)]
  simp only [Option.some.injEq]
  push_cast
  omega

/-- C2: for every integer v in [0, 57599], `decode_value (encode_value v) = v`;
`encode_value` fails exactly outside [0, 57599]; and `decode_value` fails
exactly when its input is not 2 bytes long, decoding every 2-byte input to
some integer with no other validation. -/
theorem claim_roundtrip_and_domains :
    (∀ v : Int, 0 ≤ v ∧ v ≤ 57599 →
      ∃ bs, encode_value v = some bs ∧ decode_value bs = some v)
    ∧ (∀ v : Int, encode_value v = none ↔ (v < 0 ∨ 57599 < v))
    ∧ (∀ bs : List Nat, (decode_value bs).isSome = true ↔ bs.length = 2) := by
  refine ⟨?_, ?_, ?_⟩
  · intro v hv
    obtain ⟨bs, h1, _, h3⟩ := decode_encode_value v hv.1 hv.2
    exact ⟨bs, h1, h3⟩
  · intro v
    unfold encode_value
    split
    · simp only [reduceCtorEq, false_iff]
      omega
    · simp only [true_iff]
      omega
  · intro bs
    unfold decode_value
    split
    · simp only [Option.isSome_some, true_iff]
      assumption
    · simp only [Option.isSome_none, Bool.false_eq_true, false_iff]
      assumption

/-- Witness for C2 at the boundary inputs named by the spec. -/
theorem claim_roundtrip_and_domains_witness :
    (∃ bs, encode_value 57599 = some bs ∧ decode_value bs = some 57599)
    ∧ encode_value (-1) = none
    ∧ encode_value 57600 = none
    ∧ (encode_value 0).isSome = true
    ∧ (encode_value 57599).isSome = true := by
  refine ⟨claim_roundtrip_and_domains.1 57599 (by decide), ?_, ?_, ?_, ?_⟩ <;> decide

/-- C6: in range, `encode_value v` is the big-endian two-byte representation
of `v + 16 * (v / 240)`, and neither output byte falls in the reserved range
0xF0-0xFF (both are below 0xF0). -/
theorem claim_encode_offset_bytes (v : Int) (h0 : 0 ≤ v) (h1 : v ≤ 57599) :
    ∃ hi lo : Nat, encode_value v = some [hi, lo]
      ∧ (hi : Int) * 256 + (lo : Int) = v + 16 * (v / 240)
      ∧ hi < 0xF0 ∧ lo < 0xF0 := by
  obtain ⟨n, rfl⟩ := Int.eq_ofNat_of_zero_le h0
  have hn : ((n : Int)).toNat = n := Int.toNat_natCast n
  refine ⟨n / 240, n % 240, ?_, ?_, by omega, by omega⟩
  · rw [encode_value_eq _ h0 h1, hn]
  · norm_cast
    omega

/-- Witness for C6: the group-boundary encodings 240 ↦ 0x0100, 479 ↦ 0x01EF
and 480 ↦ 0x0200 stated by the spec. -/
theorem claim_encode_offset_bytes_witness :
    (∃ hi lo : Nat, encode_value 240 = some [hi, lo]
      ∧ (hi : Int) * 256 + (lo : Int) = 240 + 16 * (240 / 240)
      ∧ hi < 0xF0 ∧ lo < 0xF0)
    ∧ encode_value 240 = some [0x01, 0x00]
    ∧ encode_value 479 = some [0x01, 0xEF]
    ∧ encode_value 480 = some [0x02, 0x00] := by
  refine ⟨claim_encode_offset_bytes 240 (by decide) (by decide), ?_, ?_, ?_⟩ <;> decide

/-- Padding/truncation to six bytes, written as the list of the first six
`getD` values. -/
theorem pad6_eq (l : List Nat) :
    (if l.length < 6 then l ++ List.replicate (6 - l.length) 0 else l.take 6)
    = [l.getD 0 0, l.getD 1 0, l.getD 2 0, l.getD 3 0, l.getD 4 0, l.getD 5 0] := by
  match l with
  | [] => rfl
  | [a] => rfl
  | [a, b] => rfl
  | [a, b, c] => rfl
  | [a, b, c, d] => rfl
  | [a, b, c, d, e] => rfl
  | a :: b :: c :: d :: e :: f :: rest =>
    have hlen : ¬ ((a :: b :: c :: d :: e :: f :: rest).length < 6) := by
      simp only [List.length_cons]
      omega
    rw [if_neg hlen]
    rfl

/-- Nibble packing is positional arithmetic. -/
theorem nibble_pack (mode command : Nat) (h : command ≤ 15) :
    (mode <<< 4) ||| command = 16 * mode + command := by
  rw [shiftLeft_lor_eq_add mode command 4 (by omega)]
  ring_nf

/-- C5: `send_command` writes exactly the 10-byte frame
INIT, (mode<<4)|command, six data bytes (zero-padded / truncated), the XOR
checksum of bytes 1-7 of the frame itself, and END; it fails when a nibble
is outside 0..15. -/
theorem claim_send_command_frame (mode command : Nat) (data : Option (List Nat)) :
    ((16 ≤ mode ∨ 16 ≤ command) → send_command mode command data = none)
    ∧ (mode ≤ 15 → command ≤ 15 →
      ∃ f, send_command mode command data = some f
        ∧ f.length = 10
        ∧ f.getD 0 0 = 0xFA
        ∧ f.getD 9 0 = 0xF8
        ∧ f.getD 1 0 = 16 * mode + command
        ∧ (∀ i, i < 6 → f.getD (2 + i) 0 = (data.getD []).getD i 0)
        ∧ f.getD 8 0 = calculate_checksum ((f.drop 1).take 7)) := by
  constructor
  · intro h
    unfold send_command
    split
    · rfl
    · split
      · rfl
      · exfalso
        omega
  · intro hm hc
    rcases data with _ | l
    · refine ⟨[0xFA, (mode <<< 4) ||| command, 0, 0, 0, 0, 0, 0,
        calculate_checksum [(mode <<< 4) ||| command, 0, 0, 0, 0, 0, 0], 0xF8],
        ?_, rfl, rfl, rfl, ?_, ?_, rfl⟩
      · unfold send_command
        rw [if_neg (by omega), if_neg (by omega)]
        rfl
      · exact nibble_pack mode command hc
      · intro i hi
        interval_cases i <;> rfl
    · refine ⟨[0xFA, (mode <<< 4) ||| command, l.getD 0 0, l.getD 1 0, l.getD 2 0,
        l.getD 3 0, l.getD 4 0, l.getD 5 0,
        calculate_checksum [(mode <<< 4) ||| command, l.getD 0 0, l.getD 1 0, l.getD 2 0,
          l.getD 3 0, l.getD 4 0, l.getD 5 0], 0xF8],
        ?_, rfl, rfl, rfl, ?_, ?_, rfl⟩
      · unfold send_command
        rw [if_neg (by omega), if_neg (by omega)]
        simp only [pad6_eq]
        rfl
      · exact nibble_pack mode command hc
      · intro i hi
        interval_cases i <;> rfl

/-- Witness for C5: the connect frame FA 05 00 00 00 00 00 00 05 F8, the
invalid-nibble failure at mode 16, and truncation of an 8-byte payload. -/
theorem claim_send_command_frame_witness :
    send_command 0 5 none = some [0xFA, 0x05, 0, 0, 0, 0, 0, 0, 0x05, 0xF8]
    ∧ send_command 16 1 none = none
    ∧ send_command 0 1 (some [1, 2, 3, 4, 5, 6, 7, 8])
      = some [0xFA, 0x01, 1, 2, 3, 4, 5, 6, 0x06, 0xF8]
    ∧ (∃ f, send_command 0 5 none = some f
        ∧ f.length = 10
        ∧ f.getD 0 0 = 0xFA
        ∧ f.getD 9 0 = 0xF8
        ∧ f.getD 1 0 = 16 * 0 + 5
        ∧ (∀ i, i < 6 → f.getD (2 + i) 0 = ((none : Option (List Nat)).getD []).getD i 0)
        ∧ f.getD 8 0 = calculate_checksum ((f.drop 1).take 7)) := by
  refine ⟨by decide, (claim_send_command_frame 16 1 none).1 (Or.inl (by decide)), by decide,
    (claim_send_command_frame 0 5 none).2 (by decide) (by decide)⟩

/-- C1 evidence: evaluated at concrete inputs (value 1, cutoff 3 V, zero
timeout), `adjust_discharge_cc` emits command byte 0x01 — mode nibble 0 and
command nibble 1 (start), not the adjust nibble 7 — because
`_send_cmd_discharge_cc` ignores its `cmd` argument; and the discharge-CP
builders emit mode nibble 0, not the discharge-CP nibble 1: the command byte
of `start_discharge_cp` is 0x01 and of `adjust_discharge_cp` is 0x07, both
with high nibble 0. -/
theorem claim_discharge_builder_nibbles :
    (adjust_discharge_cc 1 3 0).map (fun f => f.getD 1 0) = some 0x01
    ∧ (start_discharge_cp 1 3 0).map (fun f => f.getD 1 0) = some 0x01
    ∧ (adjust_discharge_cp 1 3 0).map (fun f => f.getD 1 0) = some 0x07 := by
  have h1000 : pyInt ((1 : ℚ) * (I_MULT : ℚ)) = 1000 :=
    pyInt_eq_of_cast _ _ (by norm_num [I_MULT])
  have h300 : pyInt ((3 : ℚ) * (V_MULT : ℚ)) = 300 :=
    pyInt_eq_of_cast _ _ (by norm_num [V_MULT])
  have h100 : pyInt ((1 : ℚ) * (P_MULT : ℚ)) = 100 :=
    pyInt_eq_of_cast _ _ (by norm_num [P_MULT])
  have h0 : pyInt ((0 : ℚ) / 60) = 0 := pyInt_eq_of_cast _ _ (by norm_num)
  unfold adjust_discharge_cc start_discharge_cp adjust_discharge_cp
    send_cmd_discharge_cc send_cmd_discharge_cp
  rw [h1000, h300, h100, h0]
  decide

/-- The map `MODE_NAMES` has no entry for mode codes of 8 or more. -/
theorem MODE_NAMES_ge8 (mo : Nat) (h : 8 ≤ mo) : MODE_NAMES mo = none := by
  match mo, h with
  | n + 8, _ => rfl

/-- The map `RESP_STATE_NAMES` has no entry for state codes of 3 or more. -/
theorem RESP_STATE_NAMES_ge3 (s : Nat) (h : 3 ≤ s) : RESP_STATE_NAMES s = none := by
  match s, h with
  | n + 3, _ => rfl

/-- Evaluation of `read_measurement` on any well-framed 19-byte input. -/
theorem read_measurement_eval (d : List Nat) (hlen : d.length = 19)
    (h0 : d.getD 0 0 = 0xFA) (h18 : d.getD 18 0 = 0xF8) :
    read_measurement d = some {
      regime := d.getD 1 0
      mode := (MODE_NAMES (d.getD 1 0 % 10)).getD (unknown_name (d.getD 1 0 % 10))
      state := (RESP_STATE_NAMES (d.getD 1 0 / 10)).getD (unknown_name (d.getD 1 0 / 10))
      i_measured := (decode2 (d.getD 2 0) (d.getD 3 0) : ℚ) / 1000
      u_measured := (decode2 (d.getD 4 0) (d.getD 5 0) : ℚ) / 1000
      stored_charge := decode2 (d.getD 6 0) (d.getD 7 0)
      i_setting := (decode2 (d.getD 10 0) (d.getD 11 0) : ℚ) / 1000
      u_cutoff := (decode2 (d.getD 12 0) (d.getD 13 0) : ℚ) / 100
      max_time := decode2 (d.getD 14 0) (d.getD 15 0)
      ident := d.getD 16 0
      unk1 := [d.getD 8 0, d.getD 9 0]
      raw_data := d } := by
  have hne : d ≠ [] := by
    intro he
    rw [he] at hlen
    simp at hlen
  unfold read_measurement
  rw [if_neg hne, if_neg (by omega), if_neg (by push_neg; exact ⟨h0, h18⟩)]

/-- C4: `read_measurement` never raises on malformed input: it returns
no data on an empty read, on any length other than 19, and on wrong
INIT/END sentinels; but a well-framed 19-byte response whose checksum byte
does not match the XOR of bytes 1-16 is still decoded and returned. -/
theorem claim_parse_lenient (d : List Nat) :
    read_measurement ([] : List Nat) = none
    ∧ (d.length ≠ 19 → read_measurement d = none)
    ∧ (¬ (d.getD 0 0 = 0xFA ∧ d.getD 18 0 = 0xF8) → read_measurement d = none)
    ∧ (d.length = 19 → d.getD 0 0 = 0xFA → d.getD 18 0 = 0xF8 →
        calculate_checksum ((d.drop 1).take 16) ≠ d.getD 17 0 →
        ∃ m, read_measurement d = some m) := by
  refine ⟨rfl, ?_, ?_, ?_⟩
  · intro h
    by_cases hd : d = []
    · rw [hd]
      rfl
    · unfold read_measurement
      rw [if_neg hd, if_pos h]
  · intro h
    by_cases hd : d = []
    · rw [hd]
      rfl
    · by_cases hl : d.length ≠ 19
      · unfold read_measurement
        rw [if_neg hd, if_pos hl]
      · unfold read_measurement
        rw [if_neg hd, if_neg hl,
          if_pos (show ¬ (d.getD 0 0 = INIT_BYTE ∧ d.getD 18 0 = END_BYTE) from h)]
  · intro hlen h0 h18 _hsum
    exact ⟨_, read_measurement_eval d hlen h0 h18⟩

/-- Witness for C4: a 19-byte frame with wrong INIT, a short frame, and a
well-framed frame with a mismatched checksum that still decodes. -/
theorem claim_parse_lenient_witness :
    read_measurement [0x00, 1, 0, 0, 0, 0, 0, 0, 0, 0, 0, 0, 0, 0, 0, 0, 0, 1, 0xF8] = none
    ∧ read_measurement [0xFA, 1, 0, 0, 0, 0, 0, 0, 0, 0, 0, 0, 0, 0, 0, 0, 1, 0xF8] = none
    ∧ (∃ m, read_measurement
        [0xFA, 1, 0, 0, 0, 0, 0, 0, 0, 0, 0, 0, 0, 0, 0, 0, 0, 0xFF, 0xF8] = some m) := by
  refine ⟨(claim_parse_lenient _).2.2.1 (by decide), (claim_parse_lenient _).2.1 (by decide),
    (claim_parse_lenient _).2.2.2 (by decide) (by decide) (by decide) (by decide)⟩

/-- C3 counterexample: the claim says mode values 0 through 8 map to named
operating modes, but in a well-framed response with regime byte 8 (mode
`8 mod 10 = 8`) the reported mode is the fallback "UNKNOWN_8" — the
`MODE_NAMES` dict has keys 0..7 only, since `MODE_SYS` and `MODE_D_CC`
collide on key 0. -/
theorem claim_regime_decoding_counterexample :
    (read_measurement (regimeFrame 8)).map Measurement.mode = some "UNKNOWN_8"
    ∧ MODE_NAMES 8 = none := by
  refine ⟨?_, rfl⟩
  decide

/-- C3 (amended): in a well-framed response, the reported mode is
`regime mod 10` and the state is `regime div 10`; mode values 0 through 7
map to named operating modes, state values 0/1/2 map to
IDLE/WORKING/COMPLETED, and every other mode or state code is represented
with an UNKNOWN_code name rather than failing. -/
theorem claim_regime_decoding (d : List Nat) (hlen : d.length = 19)
    (h0 : d.getD 0 0 = 0xFA) (h18 : d.getD 18 0 = 0xF8) :
    ∃ m, read_measurement d = some m
      ∧ (d.getD 1 0 % 10 ≤ 7 →
          ∃ name, MODE_NAMES (d.getD 1 0 % 10) = some name ∧ m.mode = name)
      ∧ (8 ≤ d.getD 1 0 % 10 → m.mode = unknown_name (d.getD 1 0 % 10))
      ∧ (d.getD 1 0 / 10 = 0 → m.state = "IDLE")
      ∧ (d.getD 1 0 / 10 = 1 → m.state = "WORKING")
      ∧ (d.getD 1 0 / 10 = 2 → m.state = "COMPLETED")
      ∧ (3 ≤ d.getD 1 0 / 10 → m.state = unknown_name (d.getD 1 0 / 10)) := by
  refine ⟨_, read_measurement_eval d hlen h0 h18, ?_, ?_, ?_, ?_, ?_, ?_⟩
  · intro h
    set r := d.getD 1 0 % 10 with hr
    clear_value r
    interval_cases r
    · exact ⟨"D_CC", rfl, rfl⟩
    · exact ⟨"D_CP", rfl, rfl⟩
    · exact ⟨"C_NIMH", rfl, rfl⟩
    · exact ⟨"C_NICD", rfl, rfl⟩
    · exact ⟨"C_LIPO", rfl, rfl⟩
    · exact ⟨"C_LIFE", rfl, rfl⟩
    · exact ⟨"C_PB", rfl, rfl⟩
    · exact ⟨"C_CCCV", rfl, rfl⟩
  · intro h
    show (MODE_NAMES (d.getD 1 0 % 10)).getD (unknown_name (d.getD 1 0 % 10))
      = unknown_name (d.getD 1 0 % 10)
    rw [ MODE_NAMES_ge8 _ h]
    rfl
  · intro h
    show (RESP_STATE_NAMES (d.getD 1 0 / 10)).getD (unknown_name (d.getD 1 0 / 10)) = "IDLE"
    rw [h]
    rfl
  · intro h
    show (RESP_STATE_NAMES (d.getD 1 0 / 10)).getD (unknown_name (d.getD 1 0 / 10)) = "WORKING"
    rw [h]
    rfl
  · intro h
    show (RESP_STATE_NAMES (d.getD 1 0 / 10)).getD (unknown_name (d.getD 1 0 / 10)) = "COMPLETED"
    rw [h]
    rfl
  · intro h
    show (RESP_STATE_NAMES (d.getD 1 0 / 10)).getD (unknown_name (d.getD 1 0 / 10))
      = unknown_name (d.getD 1 0 / 10)
    rw [RESP_STATE_NAMES_ge3 _ h]
    rfl

/-- Witness for C3 (amended): regime byte 21 reports mode D_CP and state
COMPLETED. -/
theorem claim_regime_decoding_witness :
    (read_measurement (regimeFrame 21)).map Measurement.mode = some "D_CP"
    ∧ (read_measurement (regimeFrame 21)).map Measurement.state = some "COMPLETED" := by
  obtain ⟨m, hm, hmode, _, _, _, hst2, _⟩ :=
    claim_regime_decoding (regimeFrame 21) (by decide) rfl rfl
  obtain ⟨name, hname, hmn⟩ := hmode (by decide)
  rw [hm]
  constructor
  · rw [Option.map_some', hmn]
    injection hname.symm with h
    rw [h]
  · rw [Option.map_some', hst2 (by decide)]

/-- The head of a cons does not change `getLast?` when the tail is nonempty. -/
theorem getLast?_cons_of_ne_nil {α : Type} (a : α) (l : List α) (h : l ≠ []) :
    (a :: l).getLast? = l.getLast? := by
  cases l
  · exact absurd rfl h
  · rfl

/-- Counting terminal samples through a cons with a terminal head. -/
theorem countP_cons_term (m : Measurement) (l : List Measurement) (h : is_terminal m = true) :
    (m :: l).countP (fun x => is_terminal x) = l.countP (fun x => is_terminal x) + 1 := by
  simp [List.countP_cons, h]

/-- Counting terminal samples through a cons with a non-terminal head. -/
theorem countP_cons_nonterm (m : Measurement) (l : List Measurement)
    (h : ¬ is_terminal m = true) :
    (m :: l).countP (fun x => is_terminal x) = l.countP (fun x => is_terminal x) := by
  simp [List.countP_cons, h]

/-- Once the counter has reached 4, the polling loop forwards nothing. -/
theorem ruc_ge_four (c : Nat) (h : 4 ≤ c) (reads : List (Option Measurement)) :
    read_until_complete c reads = [] := by
  cases reads
  · rfl
  · unfold read_until_complete
    rw [if_pos h]

/-- Behaviour of `read_until_complete` from an arbitrary counter value: the
forwarded samples are a prefix of the parsed samples, the loop stops exactly
on the `4 - c`-th terminal sample when there is one and otherwise consumes
every read. -/
theorem ruc_spec (reads : List (Option Measurement)) :
    ∀ c : Nat,
    (∃ rest, reads.filterMap id = read_until_complete c reads ++ rest)
    ∧ (read_until_complete c reads).countP (fun m => is_terminal m)
        = min (4 - c) ((reads.filterMap id).countP (fun m => is_terminal m))
    ∧ ((reads.filterMap id).countP (fun m => is_terminal m) < 4 - c →
        read_until_complete c reads = reads.filterMap id)
    ∧ (4 - c ≤ (reads.filterMap id).countP (fun m => is_terminal m) → c < 4 →
        ∃ m, (read_until_complete c reads).getLast? = some m ∧ is_terminal m = true) := by
  induction reads with
  | nil =>
    intro c
    refine ⟨⟨[], rfl⟩, by simp [read_until_complete], fun _ => rfl, ?_⟩
    intro h1 h2
    exfalso
    simp only [List.filterMap_nil, List.countP_nil] at h1
    omega
  | cons r rest ih =>
    intro c
    by_cases hc : 4 ≤ c
    · rw [ruc_ge_four c hc]
      have h0 : 4 - c = 0 := by omega
      refine ⟨⟨_, rfl⟩, by rw [h0]; simp, ?_, ?_⟩
      · intro h
        exfalso
        omega
      · intro h1 h2
        exfalso
        omega
    · rcases r with _ | m
      · have hr : read_until_complete c (none :: rest) = read_until_complete c rest := by
          rw [read_until_complete, if_neg hc]
        have hp : (none :: rest).filterMap id = rest.filterMap id := by simp
        rw [hr, hp]
        exact ih c
      · have hp : (some m :: rest).filterMap id = m :: rest.filterMap id := by simp
        by_cases ht : is_terminal m = true
        · have hr : read_until_complete c (some m :: rest)
              = m :: read_until_complete (c + 1) rest := by
            rw [read_until_complete, if_neg hc]
            show m :: read_until_complete (if is_terminal m then c + 1 else c) rest
              = m :: read_until_complete (c + 1) rest
            rw [if_pos ht]
          rw [hr, hp]
          obtain ⟨⟨r1, e1⟩, e2, e3, e4⟩ := ih (c + 1)
          refine ⟨⟨r1, by rw [List.cons_append, ← e1]⟩, ?_, ?_, ?_⟩
          · rw [countP_cons_term _ _ ht, countP_cons_term _ _ ht]
            omega
          · intro h
            rw [countP_cons_term _ _ ht] at h
            rw [e3 (by omega)]
          · intro h1 h2
            by_cases hc3 : c + 1 < 4
            · obtain ⟨m', hl, htm⟩ := e4 (by
                rw [countP_cons_term _ _ ht] at h1
                omega) hc3
              have hne : read_until_complete (c + 1) rest ≠ [] := by
                intro he
                rw [he] at hl
                simp at hl
              rw [getLast?_cons_of_ne_nil _ _ hne]
              exact ⟨m', hl, htm⟩
            · rw [ruc_ge_four (c + 1) (by omega)]
              exact ⟨m, rfl, ht⟩
        · have hr : read_until_complete c (some m :: rest)
              = m :: read_until_complete c rest := by
            rw [read_until_complete, if_neg hc]
            show m :: read_until_complete (if is_terminal m then c + 1 else c) rest
              = m :: read_until_complete c rest
            rw [if_neg ht]
          rw [hr, hp]
          obtain ⟨⟨r1, e1⟩, e2, e3, e4⟩ := ih c
          refine ⟨⟨r1, by rw [List.cons_append, ← e1]⟩, ?_, ?_, ?_⟩
          · rw [countP_cons_nonterm _ _ ht, countP_cons_nonterm _ _ ht]
            exact e2
          · intro h
            rw [countP_cons_nonterm _ _ ht] at h
            rw [e3 h]
          · intro h1 h2
            obtain ⟨m', hl, htm⟩ := e4 (by
              rw [countP_cons_nonterm _ _ ht] at h1
              exact h1) h2
            have hne : read_until_complete c rest ≠ [] := by
              intro he
              rw [he] at hl
              simp at hl
            rw [getLast?_cons_of_ne_nil _ _ hne]
            exact ⟨m', hl, htm⟩

/-- C7: over any finite stream of reads, `read_until_complete` skips reads
with no data, forwards every parsed sample to the sink in order (the
forwarded list is a prefix of the parsed list), never resets its terminal
counter, and returns exactly when the fourth terminal-state (COMPLETED or
IDLE) sample is observed: with at least four terminal samples the forwarded
list ends at a terminal sample and contains exactly four of them; with
fewer it consumes the whole stream. -/
theorem claim_poll_until_four_terminal (reads : List (Option Measurement)) :
    (∃ rest, reads.filterMap id = read_until_complete 0 reads ++ rest)
    ∧ (read_until_complete 0 reads).countP (fun m => is_terminal m)
        = min 4 ((reads.filterMap id).countP (fun m => is_terminal m))
    ∧ ((reads.filterMap id).countP (fun m => is_terminal m) < 4 →
        read_until_complete 0 reads = reads.filterMap id)
    ∧ (4 ≤ (reads.filterMap id).countP (fun m => is_terminal m) →
        ∃ m, (read_until_complete 0 reads).getLast? = some m ∧ is_terminal m = true) := by
  obtain ⟨h1, h2, h3, h4⟩ := ruc_spec reads 0
  exact ⟨h1, h2, h3, fun hx => h4 hx (by norm_num)⟩

/-- Witness for C7: a stream with a no-data read and an interleaved
non-terminal sample; the loop forwards every parsed sample and returns right
after the fourth terminal one. -/
theorem claim_poll_until_four_terminal_witness :
    read_until_complete 0
        [some sampleCompleted, none, some sampleWorking, some sampleCompleted,
          some sampleCompleted, some sampleCompleted, some sampleWorking]
      = [sampleCompleted, sampleWorking, sampleCompleted, sampleCompleted, sampleCompleted]
    ∧ (∃ m, (read_until_complete 0
        [some sampleCompleted, none, some sampleWorking, some sampleCompleted,
          some sampleCompleted, some sampleCompleted, some sampleWorking]).getLast? = some m
        ∧ is_terminal m = true) := by
  refine ⟨by decide, (claim_poll_until_four_terminal _).2.2.2 (by decide)⟩

/-- One step of the fuel-indexed decay loop. -/
theorem cv_iter_succ (f : Nat) (cur : ℚ) :
    cv_iter (f + 1) cur
      = if cur * (4 / 5) < 1 / 20 then ([], 1)
      else ((cur * (4 / 5)) :: (cv_iter f (cur * (4 / 5))).1,
        (cv_iter f (cur * (4 / 5))).2 + 1) := rfl

/-- From the 5 A seed, the decay loop takes exactly 21 decay steps, and the
20 currents at which adjust commands are issued are 5·(4/5)^k for
k = 1..20. -/
theorem cv_iter_21 :
    cv_iter 21 5
      = ([4, 16 / 5, 64 / 25, 256 / 125, 1024 / 625, 4096 / 3125, 16384 / 15625,
          65536 / 78125, 262144 / 390625, 1048576 / 1953125, 4194304 / 9765625,
          16777216 / 48828125, 67108864 / 244140625, 268435456 / 1220703125,
          1073741824 / 6103515625, 4294967296 / 30517578125, 17179869184 / 152587890625,
          68719476736 / 762939453125, 274877906944 / 3814697265625,
          1099511627776 / 19073486328125], 21) := by
  norm_num [cv_iter_succ]

/-- The 20 adjust currents in closed form. -/
theorem cv_currents_range_form :
    (List.range 20).map (fun k => (5 : ℚ) * (4 / 5) ^ (k + 1))
      = [4, 16 / 5, 64 / 25, 256 / 125, 1024 / 625, 4096 / 3125, 16384 / 15625,
          65536 / 78125, 262144 / 390625, 1048576 / 1953125, 4194304 / 9765625,
          16777216 / 48828125, 67108864 / 244140625, 268435456 / 1220703125,
          1073741824 / 6103515625, 4294967296 / 30517578125, 17179869184 / 152587890625,
          68719476736 / 762939453125, 274877906944 / 3814697265625,
          1099511627776 / 19073486328125] := by
  norm_num [List.range_succ]

/-- A run of the decay loop that ended through the current floor (step count
one more than the adjust count) is unchanged by extra fuel. -/
theorem cv_iter_stable : ∀ (f : Nat) (cur : ℚ),
    (cv_iter f cur).2 = (cv_iter f cur).1.length + 1 →
    ∀ g, f ≤ g → cv_iter g cur = cv_iter f cur := by
  intro f
  induction f with
  | zero =>
    intro cur h
    simp [cv_iter] at h
  | succ f ih =>
    intro cur h g hg
    match g, hg with
    | g' + 1, hg =>
      by_cases hf : cur * (4 / 5) < 1 / 20
      · rw [cv_iter_succ g' cur, if_pos hf, cv_iter_succ f cur, if_pos hf]
      · rw [cv_iter_succ f cur, if_neg hf] at h
        have h' : (cv_iter f (cur * (4 / 5))).2 = (cv_iter f (cur * (4 / 5))).1.length + 1 := by
          simp only [List.length_cons] at h
          omega
        rw [cv_iter_succ g' cur, if_neg hf, cv_iter_succ f cur, if_neg hf,
          ih (cur * (4 / 5)) h' g' (by omega)]

/-- When every parsed sample is terminal, the discharge decay loop is the
fuel-indexed loop run on the number of parsed samples, each adjusted current
becoming an `adjust_discharge_cc` command at the same target. -/
theorem discharge_cv_loop_eq (tv : ℚ) :
    ∀ reads : List (Option Measurement),
    (∀ m ∈ reads.filterMap id, is_terminal m = true) →
    ∀ cur : ℚ,
    discharge_cv_loop reads cur tv
      = (((cv_iter (reads.filterMap id).length cur).1).map
          (fun c => CmdEvent.adjustDischargeCc c tv),
        (cv_iter (reads.filterMap id).length cur).2) := by
  intro reads
  induction reads with
  | nil => intro _ cur; rfl
  | cons r rest ih =>
    intro hterm cur
    rcases r with _ | m
    · have hp : (none :: rest).filterMap id = rest.filterMap id := by simp
      have hl : discharge_cv_loop (none :: rest) cur tv = discharge_cv_loop rest cur tv := rfl
      rw [hl, hp]
      exact ih (fun m hm => hterm m (by rw [hp]; exact hm)) cur
    · have hm : is_terminal m = true := hterm m (by simp)
      have hp : (some m :: rest).filterMap id = m :: rest.filterMap id := by simp
      have hterm' : ∀ x ∈ rest.filterMap id, is_terminal x = true := by
        intro x hx
        exact hterm x (by rw [hp]; exact List.mem_cons_of_mem _ hx)
      have hl : discharge_cv_loop (some m :: rest) cur tv
          = if cur * (4 / 5) < 1 / 20 then ([], 1)
            else (CmdEvent.adjustDischargeCc (cur * (4 / 5)) tv
                :: (discharge_cv_loop rest (cur * (4 / 5)) tv).1,
              (discharge_cv_loop rest (cur * (4 / 5)) tv).2 + 1) := by
        rw [discharge_cv_loop, if_pos hm]
      rw [hl, hp, List.length_cons, cv_iter_succ]
      by_cases hflo : cur * (4 / 5) < 1 / 20
      · rw [if_pos hflo, if_pos hflo]
        rfl
      · rw [if_neg hflo, if_neg hflo, ih hterm' (cur * (4 / 5))]
        rfl

/-- The charge decay loop, same statement with `adjust_charge_cccv`
commands. -/
theorem charge_cv_loop_eq (tv : ℚ) :
    ∀ reads : List (Option Measurement),
    (∀ m ∈ reads.filterMap id, is_terminal m = true) →
    ∀ cur : ℚ,
    charge_cv_loop reads cur tv
      = (((cv_iter (reads.filterMap id).length cur).1).map
          (fun c => CmdEvent.adjustChargeCccv tv c),
        (cv_iter (reads.filterMap id).length cur).2) := by
  intro reads
  induction reads with
  | nil => intro _ cur; rfl
  | cons r rest ih =>
    intro hterm cur
    rcases r with _ | m
    · have hp : (none :: rest).filterMap id = rest.filterMap id := by simp
      have hl : charge_cv_loop (none :: rest) cur tv = charge_cv_loop rest cur tv := rfl
      rw [hl, hp]
      exact ih (fun m hm => hterm m (by rw [hp]; exact hm)) cur
    · have hm : is_terminal m = true := hterm m (by simp)
      have hp : (some m :: rest).filterMap id = m :: rest.filterMap id := by simp
      have hterm' : ∀ x ∈ rest.filterMap id, is_terminal x = true := by
        intro x hx
        exact hterm x (by rw [hp]; exact List.mem_cons_of_mem _ hx)
      have hl : charge_cv_loop (some m :: rest) cur tv
          = if cur * (4 / 5) < 1 / 20 then ([], 1)
            else (CmdEvent.adjustChargeCccv tv (cur * (4 / 5))
                :: (charge_cv_loop rest (cur * (4 / 5)) tv).1,
              (charge_cv_loop rest (cur * (4 / 5)) tv).2 + 1) := by
        rw [charge_cv_loop, if_pos hm]
      rw [hl, hp, List.length_cons, cv_iter_succ]
      by_cases hflo : cur * (4 / 5) < 1 / 20
      · rw [if_pos hflo, if_pos hflo]
        rfl
      · rw [if_neg hflo, if_neg hflo, ih hterm' (cur * (4 / 5))]
        rfl

/-- C8: when every parsed measurement after the start command is terminal,
both CV ramp loops, seeded at 5 A, run exactly 21 decay steps (multiply by
0.8 on each terminal observation); an adjust command is issued at each of
the first 20 decayed currents 5·(4/5)^k (k = 1..20), all of which are at
least the 0.05 A floor, and the loop exits at the 21st decayed current
5·(4/5)^21, the first one below the floor. -/
theorem claim_cv_decay_sequence (reads : List (Option Measurement)) (tv : ℚ)
    (hterm : ∀ m ∈ reads.filterMap id, is_terminal m = true)
    (hlen : 21 ≤ (reads.filterMap id).length) :
    discharge_cv_loop reads 5 tv
      = ((List.range 20).map
          (fun k => CmdEvent.adjustDischargeCc ((5 : ℚ) * (4 / 5) ^ (k + 1)) tv), 21)
    ∧ charge_cv_loop reads 5 tv
      = ((List.range 20).map
          (fun k => CmdEvent.adjustChargeCccv tv ((5 : ℚ) * (4 / 5) ^ (k + 1))), 21)
    ∧ (∀ k, k < 20 → (1 : ℚ) / 20 ≤ 5 * (4 / 5) ^ (k + 1))
    ∧ (5 * ((4 : ℚ) / 5) ^ 21 < 1 / 20) := by
  have hfloor : (cv_iter 21 5).2 = (cv_iter 21 5).1.length + 1 := by
    rw [cv_iter_21]
    rfl
  have key : cv_iter (reads.filterMap id).length 5 = cv_iter 21 5 :=
    cv_iter_stable 21 5 hfloor _ hlen
  refine ⟨?_, ?_, ?_, by norm_num⟩
  · rw [discharge_cv_loop_eq tv reads hterm 5, key, cv_iter_21, ← cv_currents_range_form,
      List.map_map]
    rfl
  · rw [charge_cv_loop_eq tv reads hterm 5, key, cv_iter_21, ← cv_currents_range_form,
      List.map_map]
    rfl
  · intro k hk
    interval_cases k <;> norm_num

/-- Witness for C8: a stream of 21 terminal samples at target 3 V. -/
theorem claim_cv_decay_sequence_witness :
    discharge_cv_loop (List.replicate 21 (some sampleCompleted)) 5 3
      = ((List.range 20).map
          (fun k => CmdEvent.adjustDischargeCc ((5 : ℚ) * (4 / 5) ^ (k + 1)) 3), 21)
    ∧ charge_cv_loop (List.replicate 21 (some sampleCompleted)) 5 3
      = ((List.range 20).map
          (fun k => CmdEvent.adjustChargeCccv 3 ((5 : ℚ) * (4 / 5) ^ (k + 1))), 21) := by
  obtain ⟨h1, h2, _, _⟩ :=
    claim_cv_decay_sequence (List.replicate 21 (some sampleCompleted)) 3
      (by decide) (by decide)
  exact ⟨h1, h2⟩

/-- C9: if the first successfully parsed measurement already satisfies the
target — strictly below it for `discharge_cv`, strictly above it for
`charge_cv` — the procedure returns immediately and writes no command at
all. -/
theorem claim_precheck_short_circuit (reads : List (Option Measurement)) (tv : ℚ)
    (m : Measurement) (rest : List (Option Measurement))
    (hfp : first_parsed reads = some (m, rest)) :
    (m.u_measured < tv → discharge_cv reads tv = [])
    ∧ (tv < m.u_measured → charge_cv reads tv = []) := by
  constructor
  · intro h
    unfold discharge_cv
    rw [hfp]
    show (if m.u_measured < tv then []
      else CmdEvent.startDischargeCc 5 tv :: (discharge_cv_loop rest 5 tv).1) = []
    rw [if_pos h]
  · intro h
    unfold charge_cv
    rw [hfp]
    show (if tv < m.u_measured then []
      else CmdEvent.startChargeCccv tv 5 :: (charge_cv_loop rest 5 tv).1) = []
    rw [if_pos h]

/-- Witness for C9: a first parsed read of 2.5 V short-circuits a discharge
to 3 V and a charge to 2 V, with a leading no-data read skipped. -/
theorem claim_precheck_short_circuit_witness :
    discharge_cv [none, some sampleLowVoltage] 3 = []
    ∧ charge_cv [none, some sampleLowVoltage] 2 = [] := by
  constructor
  · exact (claim_precheck_short_circuit [none, some sampleLowVoltage] 3
      sampleLowVoltage [] rfl).1 (by norm_num [sampleLowVoltage])
  · exact (claim_precheck_short_circuit [none, some sampleLowVoltage] 2
      sampleLowVoltage [] rfl).2 (by norm_num [sampleLowVoltage])

/-- Inversion of a successful `encode_value`. -/
theorem encode_value_some (v : Int) (bs : List Nat) (h : encode_value v = some bs) :
    0 ≤ v ∧ v ≤ 57599 ∧ bs = [v.toNat / 240, v.toNat % 240] := by
  by_cases hr : 0 ≤ v ∧ v ≤ 57599
  · rw [encode_value_eq v hr.1 hr.2] at h
    injection h with h
    exact ⟨hr.1, hr.2, h.symm⟩
  · unfold encode_value at h
    rw [if_neg hr] at h
    cases h

/-- Whatever `encode_value` produced decodes back to the original value. -/
theorem decode_of_encode (v : Int) (bs : List Nat) (h : encode_value v = some bs) :
    decode_value bs = some v := by
  obtain ⟨h0, h1, _⟩ := encode_value_some v bs h
  obtain ⟨bs', he, _, hd⟩ := decode_encode_value v h0 h1
  rw [h] at he
  injection he with he
  rw [he]
  exact hd

/-- C10: the two voltage fields of a parsed response use different scale
factors — `u_measured` is its decoded field divided by 1000 while `u_cutoff`
is its decoded field divided by 100 — even though every outgoing CCCV
command encodes the voltage argument as volts times `V_MULT` = 100 and the
current argument as amps times `I_MULT` = 1000 (bytes 2-3 of the frame
decode to the scaled current, bytes 4-5 to the scaled voltage). -/
theorem claim_voltage_scale_factors :
    (∀ d m, read_measurement d = some m →
      m.u_measured = (decode2 (d.getD 4 0) (d.getD 5 0) : ℚ) / 1000
      ∧ m.u_cutoff = (decode2 (d.getD 12 0) (d.getD 13 0) : ℚ) / 100)
    ∧ (∀ (cmd : Nat) (voltage current timeout_s : ℚ) (f : List Nat),
      send_cmd_charge_cccv cmd voltage current timeout_s = some f →
      decode_value ((f.drop 2).take 2) = some (pyInt (current * (I_MULT : ℚ)))
      ∧ decode_value ((f.drop 4).take 2) = some (pyInt (voltage * (V_MULT : ℚ)))) := by
  constructor
  · intro d m hm
    unfold read_measurement at hm
    split at hm
    · cases hm
    · split at hm
      · cases hm
      · split at hm
        · cases hm
        · injection hm with hm
          subst hm
          exact ⟨rfl, rfl⟩
  · intro cmd voltage current timeout_s f hf
    unfold send_cmd_charge_cccv send_command_16bit at hf
    obtain ⟨e1, he1, hf⟩ := Option.bind_eq_some.mp hf
    obtain ⟨e2, he2, hf⟩ := Option.bind_eq_some.mp hf
    obtain ⟨e3, he3, hf⟩ := Option.bind_eq_some.mp hf
    obtain ⟨_, _, rfl⟩ := encode_value_some _ _ he1
    obtain ⟨_, _, rfl⟩ := encode_value_some _ _ he2
    obtain ⟨_, _, rfl⟩ := encode_value_some _ _ he3
    unfold send_command at hf
    rw [if_neg (by decide)] at hf
    split at hf
    · cases hf
    · injection hf with hf
      subst hf
      exact ⟨decode_of_encode _ _ he1, decode_of_encode _ _ he2⟩

/-- Witness for C10: a response with measured-voltage field 100 (0.1 V) and
cutoff field 200 (2 V), and the CCCV start frame for 4.2 V / 1 A whose
payload decodes back to 1000 mA and 420 centivolt units. -/
theorem claim_voltage_scale_factors_witness :
    (read_measurement uFrame).map Measurement.u_measured = some ((decode2 0 100 : ℚ) / 1000)
    ∧ (read_measurement uFrame).map Measurement.u_cutoff = some ((decode2 0 200 : ℚ) / 100)
    ∧ send_cmd_charge_cccv CMD_START (21 / 5) 1 0
      = some [0xFA, 0x71, 0x04, 0x28, 0x01, 0xB4, 0x00, 0x00, 0xE8, 0xF8]
    ∧ decode_value [0x04, 0x28] = some (pyInt ((1 : ℚ) * (I_MULT : ℚ)))
    ∧ decode_value [0x01, 0xB4] = some (pyInt ((21 / 5 : ℚ) * (V_MULT : ℚ))) := by
  have hm : read_measurement uFrame = some _ :=
    read_measurement_eval uFrame (by decide) rfl rfl
  have h1 := (claim_voltage_scale_factors).1 uFrame _ hm
  have hi : pyInt ((1 : ℚ) * (I_MULT : ℚ)) = 1000 :=
    pyInt_eq_of_cast _ _ (by norm_num [I_MULT])
  have hv : pyInt ((21 / 5 : ℚ) * (V_MULT : ℚ)) = 420 :=
    pyInt_eq_of_cast _ _ (by norm_num [V_MULT])
  have ht : pyInt ((0 : ℚ) / 60) = 0 := pyInt_eq_of_cast _ _ (by norm_num)
  have hsend : send_cmd_charge_cccv CMD_START (21 / 5) 1 0
      = some [0xFA, 0x71, 0x04, 0x28, 0x01, 0xB4, 0x00, 0x00, 0xE8, 0xF8] := by
    unfold send_cmd_charge_cccv
    rw [hi, hv, ht]
    decide
  have h2 := (claim_voltage_scale_factors).2 CMD_START (21 / 5) 1 0 _ hsend
  refine ⟨?_, ?_, hsend, ?_, ?_⟩
  · rw [hm, Option.map_some']
    exact congrArg some (h1.1.trans rfl)
  · rw [hm, Option.map_some']
    exact congrArg some (h1.2.trans rfl)
  · exact h2.1
  · exact h2.2

end ZkeEbcAxx
